import Mathlib

/-!
Verification of the study-timer engine (`src/App.jsx`).

The persisted document, the session/segment operations, the derived
statistics (per-day totals, weekly aggregation, goal progress, streak) and
the load-time shape repair are embedded as executable Lean definitions,
and the behavioural claims about them are settled as theorems below the
definitions.

Timestamps are modelled as integers (milliseconds since the Unix epoch),
matching the numeric values produced by the runtime clock.  Division `/`
on `Int` rounds toward negative infinity for positive divisors, which is
exactly the `Math.floor` convention used by the date computations being
modelled.
-/

/-! ## Calendar model

`getDateKey` in the source calls `new Date(timestamp).toISOString().slice(0, 10)`.
`toISOString` renders the timestamp in UTC (proleptic Gregorian calendar),
so the model converts the timestamp to a UTC day number and that day
number to a civil date, then formats it as the fixed-width `YYYY-MM-DD`
string.  The day-number-to-civil-date conversion below is the standard
era-based algorithm; it agrees with `toISOString` for timestamps from
1970-01-01 up to year 9999 (the range in which `slice(0, 10)` yields a
plain `YYYY-MM-DD` prefix). -/

/-- Leap-corrected day count used by the civil-date conversion: for a
day-of-era `d` it counts `d` minus the leap days at 4-year marks, plus
the corrections at 100-year and 400-year marks. -/
def eraDayCount (d : Nat) : Nat := d - d / 1460 + d / 36524 - d / 146096

/-- First day-of-era of the year-of-era `Y` (years start on March 1 for
this computation, so leap days land at year end). -/
def yearStart (Y : Nat) : Nat := 365 * Y + Y / 4 - Y / 100

/-- Civil date `(year, month, day)` (proleptic Gregorian, UTC) of a day
number counted from the Unix epoch 1970-01-01; valid for `0 ≤ z`. -/
def civilFromDays (z : Int) : Nat × Nat × Nat :=
  let zn := (z + 719468).toNat
  let era := zn / 146097
  let doe := zn % 146097
  let yoe := (doe - doe / 1460 + doe / 36524 - doe / 146096) / 365
  let y := yoe + era * 400
  let doy := doe - (365 * yoe + yoe / 4 - yoe / 100)
  let mp := (5 * doy + 2) / 153
  let d := doy - (153 * mp + 2) / 5 + 1
  let m := if mp < 10 then mp + 3 else mp - 9
  (if m ≤ 2 then y + 1 else y, m, d)

/-- Day number (from the Unix epoch) of a civil date; inverse of
`civilFromDays` on valid dates with `1 ≤ y`. -/
def daysFromCivil (y m d : Nat) : Int :=
  let yy := if m ≤ 2 then y - 1 else y
  let era := yy / 400
  let yoe := yy % 400
  let doy := (153 * (if 2 < m then m - 3 else m + 9) + 2) / 5 + d - 1
  let doe := yoe * 365 + yoe / 4 - yoe / 100 + doy
  (era * 146097 + doe : Nat) - 719468

/-! ## Date-key formatting

Models the `YYYY-MM-DD` rendering performed by
`new Date(t).toISOString().slice(0, 10)`. -/

/-- Two-digit zero-padded decimal rendering (for months and days). -/
def pad2 (n : Nat) : List Char := [Nat.digitChar (n / 10 % 10), Nat.digitChar (n % 10)]

/-- Four-digit zero-padded decimal rendering (for years up to 9999). -/
def pad4 (n : Nat) : List Char :=
  [Nat.digitChar (n / 1000 % 10), Nat.digitChar (n / 100 % 10),
   Nat.digitChar (n / 10 % 10), Nat.digitChar (n % 10)]

/-- Render a civil date as the fixed-width `YYYY-MM-DD` string. -/
def formatCivil : Nat × Nat × Nat → String
  | (y, m, d) => String.mk (pad4 y ++ '-' :: (pad2 m ++ '-' :: pad2 d))

/-- Date-key string of a UTC day number. -/
def dateKeyOfDay (z : Int) : String := formatCivil (civilFromDays z)

/-- Model of `getDateKey(timestamp)` from the source:
`new Date(timestamp).toISOString().slice(0, 10)`, i.e. the `YYYY-MM-DD`
string of the UTC calendar day containing the timestamp. -/
def getDateKey (timestamp : Int) : String := dateKeyOfDay (timestamp / 86400000)

/-- Modelled from the spec: the spec asserts that a date-key corresponds
to the **local** calendar day in which a timestamp falls.  For a local
zone at a fixed offset of `tzOffsetMinutes` minutes from UTC, the local
calendar day containing timestamp `t` is the day number of `t` shifted
by the offset.  A zone with offset `0` is UTC itself. -/
def localDayNumber (tzOffsetMinutes t : Int) : Int :=
  (t + tzOffsetMinutes * 60000) / 86400000

/-! ## Persisted document model

The typed shape of the persisted document after load-time repair,
mirroring `getEmptyData()` in the source:
`{ version, days, currentSession, todos, settings }`.  The `days` mapping
is an insertion-ordered association list with string keys, matching the
key ordering semantics of a JS object with non-numeric keys. -/

/-- A completed study interval `{ start, end }`.  The source field `end`
is a reserved word here, so it is named `stop`. -/
structure Segment where
  start : Int
  stop : Int
deriving DecidableEq

/-- A per-day record `{ segments }`. -/
structure DayRecord where
  segments : List Segment
deriving DecidableEq

/-- The open session `{ dateKey, start }`. -/
structure Session where
  dateKey : String
  start : Int
deriving DecidableEq

/-- A to-do entry `{ id, text, done }`. -/
structure Todo where
  id : Int
  text : String
  done : Bool
deriving DecidableEq

/-- The goal settings `{ dailyGoalMinutes, weeklyGoalHours }`. -/
structure Settings where
  dailyGoalMinutes : Nat
  weeklyGoalHours : Nat
deriving DecidableEq

/-- The whole persisted document (the `data` state of the component). -/
structure StudyData where
  days : List (String × DayRecord)
  currentSession : Option Session
  todos : List Todo
  settings : Settings
deriving DecidableEq

/-- Keyed update on an insertion-ordered association list, with JS object
semantics: an existing key keeps its position and gets the new value, a
fresh key is appended at the end. -/
def setKey {α : Type} (m : List (String × α)) (k : String) (v : α) : List (String × α) :=
  if (m.lookup k).isSome then
    m.map (fun p => if p.1 = k then (k, v) else p)
  else
    m ++ [(k, v)]

/-! ## Time aggregation -/

/-- Model of `getTotalMsForDate(data, dateKey, now)`: the sum of
`max(0, end - start)` over the stored segments of the day, plus the live
`max(0, now - start)` of the open session when it belongs to the queried
date-key; `0` when the day has no record.  (The `Array.isArray` and
`typeof` guards of the source are vacuous on the typed document.) -/
def getTotalMsForDate (data : StudyData) (dateKey : String) (now : Int) : Int :=
  match data.days.lookup dateKey with
  | none => 0
  | some day =>
    let total := day.segments.foldl (fun t seg => t + max 0 (seg.stop - seg.start)) 0
    match data.currentSession with
    | some cs => if cs.dateKey = dateKey then total + max 0 (now - cs.start) else total
    | none => total

/-- Model of `getCurrentSessionMs(data, now)`. -/
def getCurrentSessionMs (data : StudyData) (now : Int) : Int :=
  match data.currentSession with
  | none => 0
  | some cs => max 0 (now - cs.start)

/-! ## Session lifecycle handlers

Each handler is modelled as a pure state transformer; the `Date.now()`
captured inside the handler is passed as an explicit argument. -/

/-- Model of `handleStart`: no-op while running, otherwise ensure a
`DayRecord` exists for the key of the start instant and open the
session. -/
def handleStart (data : StudyData) (startTime : Int) : StudyData :=
  if data.currentSession.isSome then data
  else
    let dateKey := getDateKey startTime
    let days := if (data.days.lookup dateKey).isSome then data.days
                else setKey data.days dateKey ⟨[]⟩
    { data with days := days, currentSession := some ⟨dateKey, startTime⟩ }

/-- Model of `handlePause`: no-op while idle, otherwise close the open
session, appending the segment `{start, end}` to its day exactly when
`end > start`, and clear the session. -/
def handlePause (data : StudyData) (endTime : Int) : StudyData :=
  match data.currentSession with
  | none => data
  | some cs =>
    let day := (data.days.lookup cs.dateKey).getD ⟨[]⟩
    let newSegments := if cs.start < endTime then day.segments ++ [⟨cs.start, endTime⟩]
                       else day.segments
    { data with days := setKey data.days cs.dateKey ⟨newSegments⟩,
                currentSession := none }

/-- Model of `handleResetToday` (the confirmed path): empty the segment
list of the current calendar date-key and drop the open session exactly
when it belongs to that key.  (The `window.confirm` guard is presentation
logic; declining it performs no mutation.) -/
def handleResetToday (data : StudyData) (now : Int) : StudyData :=
  let todayKey := getDateKey now
  { data with days := setKey data.days todayKey ⟨[]⟩,
              currentSession := match data.currentSession with
                | some cs => if cs.dateKey = todayKey then none else some cs
                | none => none }

/-- Model of `String.prototype.trim`: remove whitespace from both ends
of the string. -/
def jsTrim (s : String) : String :=
  ⟨(((s.data.dropWhile Char.isWhitespace).reverse.dropWhile Char.isWhitespace).reverse)⟩

/-- Model of `handleAddTodo`: trim the input, reject when empty, else
append `{ id: Date.now(), text, done: false }`. -/
def handleAddTodo (data : StudyData) (newTodoText : String) (now : Int) : StudyData :=
  let text := jsTrim newTodoText
  if text = "" then data
  else { data with todos := data.todos ++ [⟨now, text, false⟩] }

/-! ## History, weekly aggregation, and goal progress

These model the derived values computed in the component body on every
render: `allDateKeys`, `historyItems`, `weeklyTotalMs`, `dailyProgress`,
`weeklyProgress`. -/

/-- Model of `Object.keys(data.days).sort((a, b) => a < b ? 1 : a > b ? -1 : 0)`:
all date-keys of `days`, sorted descending by lexicographic string
order.  The comparator admits `a` before `b` exactly when `b ≤ a`. -/
def allDateKeys (data : StudyData) : List String :=
  (data.days.map Prod.fst).mergeSort (fun a b => decide (b ≤ a))

/-- Model of `historyItems`: the (at most) first seven sorted keys with
their live totals. -/
def historyItems (data : StudyData) (now : Int) : List (String × Int) :=
  ((allDateKeys data).take 7).map (fun dateKey => (dateKey, getTotalMsForDate data dateKey now))

/-- Model of `weeklyTotalMs`: `historyItems.reduce((sum, item) => sum + item.totalMs, 0)`. -/
def weeklyTotalMs (data : StudyData) (now : Int) : Int :=
  (historyItems data now).foldl (fun sum item => sum + item.2) 0

/-- Model of `dailyProgress`: `dailyGoalMs ? Math.min(100, Math.round((todayTotalMs / dailyGoalMs) * 100)) : 0`.
The numeric expression is read in exact (rational) arithmetic;
`Math.round` is rounding half toward positive infinity, which is
Mathlib's `round`. -/
def dailyProgress (data : StudyData) (now : Int) : Int :=
  let todayTotalMs := getTotalMsForDate data (getDateKey now) now
  let dailyGoalMs : Int := data.settings.dailyGoalMinutes * 60 * 1000
  if dailyGoalMs = 0 then 0
  else min 100 (round ((todayTotalMs : ℚ) / (dailyGoalMs : ℚ) * 100))

/-- Model of `weeklyProgress`, as `dailyProgress` but against
`weeklyGoalHours * 60 * 60 * 1000`. -/
def weeklyProgress (data : StudyData) (now : Int) : Int :=
  let weeklyGoalMs : Int := data.settings.weeklyGoalHours * 60 * 60 * 1000
  if weeklyGoalMs = 0 then 0
  else min 100 (round ((weeklyTotalMs data now : ℚ) / (weeklyGoalMs : ℚ) * 100))

/-! ## Streak -/

/-- The fixed productivity threshold, in minutes per day. -/
def PRODUCTIVE_MINUTES_FOR_STREAK : Int := 30

/-- The loop body of `computeCurrentStreak`: starting at UTC day number
`z` with the given iteration budget, count consecutive days (walking
backward) whose live total meets the threshold, stopping at the first
day below it. -/
def streakLoop (data : StudyData) (now : Int) : Int → Nat → Nat
  | _, 0 => 0
  | z, fuel + 1 =>
    if PRODUCTIVE_MINUTES_FOR_STREAK * 60 * 1000 ≤ getTotalMsForDate data (dateKeyOfDay z) now
    then streakLoop data now (z - 1) fuel + 1
    else 0

/-- Model of `computeCurrentStreak(data, now)`: walk backward from
today's date for up to 365 iterations.  (`new Date(todayKey)` re-parses
the formatted key at UTC midnight of the same day, so the walk starts at
the UTC day number of `now`; each iteration steps one calendar day
back.) -/
def computeCurrentStreak (data : StudyData) (now : Int) : Nat :=
  streakLoop data now (now / 86400000) 365

/-! ## Load-time shape repair

`loadInitialData` operates on the raw stored blob before the document has
a typed shape, so it is modelled over a JSON-value type.  Arrays carry
both their elements and any named properties later assigned to them,
because the source's `typeof parsed === "object"` test admits arrays and
then assigns named fields on them. -/

/-- A JS value as producible by `JSON.parse` (plus named properties on
arrays, which property assignment can create). -/
inductive JValue where
  | null : JValue
  | jsBool : Bool → JValue
  | num : Rat → JValue
  | str : String → JValue
  | arr : List JValue → List (String × JValue) → JValue
  | obj : List (String × JValue) → JValue

/-- JS truthiness (`!v` is the negation of this). -/
def truthy : JValue → Bool
  | .null => false
  | .jsBool b => b
  | .num q => decide (q ≠ 0)
  | .str s => decide (s ≠ "")
  | .arr _ _ => true
  | .obj _ => true

/-- Whether `typeof v === "object"`; true for objects, arrays and `null`. -/
def typeofObject : JValue → Bool
  | .null => true
  | .arr _ _ => true
  | .obj _ => true
  | _ => false

/-- Model of `Array.isArray`. -/
def isArray : JValue → Bool
  | .arr _ _ => true
  | _ => false

/-- Property read `v[k]`; `none` models `undefined`. -/
def getField : JValue → String → Option JValue
  | .obj props, k => props.lookup k
  | .arr _ props, k => props.lookup k
  | _, _ => none

/-- Property write `v[k] = w` (a silent no-op on primitives, as in
non-strict JS). -/
def setField : JValue → String → JValue → JValue
  | .obj props, k, w => .obj (setKey props k w)
  | .arr es props, k, w => .arr es (setKey props k w)
  | v, _, _ => v

/-- Truthiness of a possibly-`undefined` read. -/
def truthyOpt : Option JValue → Bool
  | none => false
  | some v => truthy v

/-- Whether a possibly-`undefined` read has `typeof === "object"`. -/
def typeofObjectOpt : Option JValue → Bool
  | none => false
  | some v => typeofObject v

/-- Whether a possibly-`undefined` read is an array. -/
def isArrayOpt : Option JValue → Bool
  | none => false
  | some v => isArray v

/-- The own enumerable properties contributed by an object spread
`{...v}`: an object's properties, or an array's index properties
followed by its named properties.  (Only objects and arrays reach the
spread in the load path.) -/
def spreadProps : JValue → List (String × JValue)
  | .obj props => props
  | .arr es props => (es.enum.map (fun p => (toString p.1, p.2))) ++ props
  | _ => []

/-- Object spread `{...base, ...extra}` where `base` is given by its
property list: later keys override earlier ones in place, fresh keys are
appended. -/
def mergeProps (base : List (String × JValue)) (extra : List (String × JValue)) :
    List (String × JValue) :=
  extra.foldl (fun acc kv => setKey acc kv.1 kv.2) base

/-- The property list of `getDefaultSettings()`. -/
def defaultSettingsProps : List (String × JValue) :=
  [("dailyGoalMinutes", .num 240), ("weeklyGoalHours", .num 20)]

/-- Model of `getDefaultSettings()`. -/
def getDefaultSettings : JValue := .obj defaultSettingsProps

/-- Model of `getEmptyData()`. -/
def getEmptyData : JValue :=
  .obj [("version", .num 3), ("days", .obj []), ("currentSession", .null),
        ("todos", .arr [] []), ("settings", getDefaultSettings)]

/-- The observable outcomes of `localStorage.getItem` + `JSON.parse` on
the stored blob: no stored value (or no `window`), an empty-string blob
(falsy raw value), a parse failure, or a parsed JSON value. -/
inductive StoredBlob where
  | missing : StoredBlob
  | empty : StoredBlob
  | unparseable : StoredBlob
  | parsed : JValue → StoredBlob

/-- The `days` repair step of the load path:
`if (!parsed.days || typeof parsed.days !== "object") parsed.days = {}`. -/
def repairDays (v : JValue) : JValue :=
  if truthyOpt (getField v "days") && typeofObjectOpt (getField v "days")
  then v else setField v "days" (.obj [])

/-- The `todos` repair step of the load path:
`if (!Array.isArray(parsed.todos)) parsed.todos = []`. -/
def repairTodos (v : JValue) : JValue :=
  if isArrayOpt (getField v "todos")
  then v else setField v "todos" (.arr [] [])

/-- The `settings` repair step of the load path: replace a falsy or
non-object `settings` by the defaults, otherwise merge the defaults
field-by-field under the stored fields (`{...defaults, ...parsed.settings}`). -/
def repairSettings (v : JValue) : JValue :=
  if truthyOpt (getField v "settings") && typeofObjectOpt (getField v "settings")
  then setField v "settings"
    (.obj (mergeProps defaultSettingsProps
      (spreadProps ((getField v "settings").getD .null))))
  else setField v "settings" getDefaultSettings

/-- Model of `loadInitialData()`: fall back to the empty document on a
missing/empty/unparseable blob or a non-object parse result; otherwise
repair the `days`, `todos` and `settings` fields in place and stamp
`version = 3`. -/
def loadInitialData : StoredBlob → JValue
  | .missing => getEmptyData
  | .empty => getEmptyData
  | .unparseable => getEmptyData
  | .parsed v =>
    if ¬ (truthy v && typeofObject v) then getEmptyData
    else setField (repairSettings (repairTodos (repairDays v))) "version" (.num 3)

/-- Whether a value is an object or an array (the values on which
property assignment is effective). -/
def isObjOrArr : JValue → Bool
  | .obj _ => true
  | .arr _ _ => true
  | _ => false

/-- The named-property list of a value. -/
def propsOf : JValue → List (String × JValue)
  | .obj props => props
  | .arr _ props => props
  | _ => []

/-- The element list of an array value. -/
def elemsOf : JValue → List JValue
  | .arr es _ => es
  | _ => []

/-- Shape invariant of every settings object produced by merging onto
the defaults: the two default keys first, then fresh keys, no
duplicates. -/
def DefaultsShaped (m : List (String × JValue)) : Prop :=
  ∃ a b rest, m = ("dailyGoalMinutes", a) :: ("weeklyGoalHours", b) :: rest ∧
    (rest.map Prod.fst).Nodup ∧ "dailyGoalMinutes" ∉ rest.map Prod.fst ∧
    "weeklyGoalHours" ∉ rest.map Prod.fst

/-! ## Concrete documents used in witnesses and counterexamples -/

/-- A document with one stored segment for 2024-01-01 and a session open
on that day since UTC midnight. -/
def exampleRunningData : StudyData :=
  ⟨[("2024-01-01", ⟨[⟨100, 200⟩]⟩)], some ⟨"2024-01-01", 1704067200000⟩, [], ⟨240, 20⟩⟩

/-- An idle document with no history. -/
def exampleIdleData : StudyData := ⟨[], none, [], ⟨240, 20⟩⟩

/-- Four recorded days with totals of 35, 40, 10 and 50 minutes for
2024-01-01 back through 2023-12-29. -/
def streakExampleData : StudyData :=
  ⟨[("2024-01-01", ⟨[⟨0, 2100000⟩]⟩), ("2023-12-31", ⟨[⟨0, 2400000⟩]⟩),
    ("2023-12-30", ⟨[⟨0, 600000⟩]⟩), ("2023-12-29", ⟨[⟨0, 3000000⟩]⟩)],
   none, [], ⟨240, 20⟩⟩

/-- A document whose today-total is exactly ten times its daily goal
(goal 1 minute, a single 10-minute segment on 2024-01-01). -/
def tenfoldGoalData : StudyData :=
  ⟨[("2024-01-01", ⟨[⟨0, 600000⟩]⟩)], none, [], ⟨1, 20⟩⟩

/-- A document already holding a todo with id 5. -/
def todoCollisionData : StudyData := ⟨[], none, [⟨5, "existing", false⟩], ⟨240, 20⟩⟩

/-- A stored document with `version: 2` and otherwise well-formed fields. -/
def versionTwoBlob : JValue :=
  .obj [("version", .num 2),
        ("days", .obj [("2024-01-01", .obj [("segments", .arr [] [])])]),
        ("currentSession", .null),
        ("todos", .arr [] []),
        ("settings", .obj [("dailyGoalMinutes", .num 60), ("weeklyGoalHours", .num 10)])]

/-! ## Theorems -/
theorem civilFromDays_spec (z : Int) :
    ∃ era doe yoe doy mp,
      (z + 719468).toNat = 146097 * era + doe ∧ doe < 146097 ∧
      yoe = (doe - doe / 1460 + doe / 36524 - doe / 146096) / 365 ∧
      doy = doe - (365 * yoe + yoe / 4 - yoe / 100) ∧
      mp = (5 * doy + 2) / 153 ∧
      civilFromDays z =
        (if (if mp < 10 then mp + 3 else mp - 9) ≤ 2 then yoe + era * 400 + 1 else yoe + era * 400,
         if mp < 10 then mp + 3 else mp - 9,
         doy - (153 * mp + 2) / 5 + 1) := by
  refine ⟨(z + 719468).toNat / 146097, (z + 719468).toNat % 146097, _, _, _,
    (Nat.div_add_mod _ _).symm, Nat.mod_lt _ (by norm_num), rfl, rfl, rfl, rfl⟩

theorem eraDayCount_step (d : Nat) : eraDayCount d ≤ eraDayCount (d + 1) := by
  unfold eraDayCount; omega

theorem eraDayCount_mono {a b : Nat} (h : a ≤ b) : eraDayCount a ≤ eraDayCount b := by
  induction b with
  | zero => simp_all
  | succ m ih =>
    rcases Nat.lt_or_ge a (m + 1) with h1 | h1
    · exact le_trans (ih (by omega)) (eraDayCount_step m)
    · have : a = m + 1 := by omega
      subst this; exact le_refl _

set_option maxRecDepth 8000 in
theorem yearBoundary_ok : ∀ Y < 400,
    eraDayCount (yearStart Y) / 365 = Y ∧ eraDayCount (yearStart (Y + 1) - 1) / 365 = Y ∧
      yearStart (Y + 1) - yearStart Y ≤ 366 := by decide

/-- Correctness of the year-of-era extraction: the leap-corrected count
divided by 365 lands in the right year, whose start is at most 365 days
before the given day-of-era. -/
theorem yoe_correct (doe : Nat) (h : doe < 146097) :
    (eraDayCount doe) / 365 ≤ 399 ∧
    yearStart ((eraDayCount doe) / 365) ≤ doe ∧
      doe - yearStart ((eraDayCount doe) / 365) ≤ 365 := by
  rcases Nat.lt_or_ge doe 146096 with h0 | h0
  case inr =>
    have : doe = 146096 := by omega
    subst this; refine ⟨by decide, by decide, by decide⟩
  case inl =>
  set Y := (eraDayCount doe) / 365 with hY
  have hmax : (eraDayCount 146095) / 365 = 399 := by decide
  have hYle : Y ≤ 399 := by
    have := @Nat.div_le_div_right _ _ 365 (eraDayCount_mono (show doe ≤ 146095 by omega))
    omega
  have hstart : yearStart Y ≤ doe := by
    by_contra hc
    push_neg at hc
    rcases Nat.eq_zero_or_pos Y with h2 | h2
    · rw [h2] at hc; simp [yearStart] at hc
    · have hb := (yearBoundary_ok (Y - 1) (by omega)).2.1
      have heq : yearStart (Y - 1 + 1) = yearStart Y := by congr 1; omega
      rw [heq] at hb
      have := @Nat.div_le_div_right _ _ 365 (eraDayCount_mono (show doe ≤ yearStart Y - 1 by omega))
      omega
  have hend : doe - yearStart Y ≤ 365 := by
    rcases Nat.lt_or_ge Y 399 with h3 | h3
    · by_contra hc
      push_neg at hc
      have hb1 := (yearBoundary_ok (Y + 1) (by omega)).1
      have hb3 := (yearBoundary_ok Y (by omega)).2.2
      have := @Nat.div_le_div_right _ _ 365 (eraDayCount_mono (show yearStart (Y + 1) ≤ doe by omega))
      omega
    · have hYv : Y = 399 := by omega
      have : yearStart 399 = 145731 := by decide
      rw [hYv] at hstart ⊢
      omega
  exact ⟨hYle, hstart, hend⟩

/-- The civil-date conversion is inverted by `daysFromCivil` on every
nonnegative day number. -/
theorem daysFromCivil_civilFromDays (z : Int) (hz : 0 ≤ z) :
    daysFromCivil (civilFromDays z).1 (civilFromDays z).2.1 (civilFromDays z).2.2 = z := by
  obtain ⟨era, doe, yoe, doy, mp, hsplit, hdoe, hyoe, hdoy, hmp, hciv⟩ := civilFromDays_spec z
  rw [hciv]
  unfold daysFromCivil
  dsimp only
  have hY := yoe_correct doe hdoe
  unfold eraDayCount yearStart at hY
  rw [← hyoe] at hY
  obtain ⟨hY1, hY2, hY3⟩ := hY
  have hdoy365 : doy ≤ 365 := by omega
  have hmp1 : mp ≤ 11 := by omega
  have hmp2 : (153 * mp + 2) / 5 ≤ doy := by omega
  clear hyoe hmp hdoe
  split_ifs <;> omega

/-- Component ranges of the civil date: months lie in `1..12`, days of
month in `1..31`, and the year stays below 10000 for day numbers up to
the last day of year 9999. -/
theorem civilFromDays_range (z : Int) :
    1 ≤ (civilFromDays z).2.1 ∧ (civilFromDays z).2.1 ≤ 12 ∧
      1 ≤ (civilFromDays z).2.2 ∧ (civilFromDays z).2.2 ≤ 31 ∧
      (0 ≤ z → z ≤ 2932896 → (civilFromDays z).1 ≤ 9999) := by
  obtain ⟨era, doe, yoe, doy, mp, hsplit, hdoe, hyoe, hdoy, hmp, hciv⟩ := civilFromDays_spec z
  rw [hciv]
  have hY := yoe_correct doe hdoe
  unfold eraDayCount yearStart at hY
  rw [← hyoe] at hY
  obtain ⟨hY1, hY2, hY3⟩ := hY
  have hdoy365 : doy ≤ 365 := by omega
  have hmp1 : mp ≤ 11 := by omega
  have hmp2 : (153 * mp + 2) / 5 ≤ doy := by omega
  have hmp3 : doy - (153 * mp + 2) / 5 ≤ 30 := by omega
  have hd306 : 306 ≤ doy ∨ mp < 10 := by omega
  clear hyoe hmp hdoe
  dsimp only
  rcases hd306 with h306 | h10 <;>
    split_ifs <;>
    refine ⟨by omega, by omega, by omega, by omega, ?_⟩ <;>
    intro hz hz2 <;> omega

theorem digitChar_inj : ∀ a < 10, ∀ b < 10,
    Nat.digitChar a = Nat.digitChar b → a = b := by decide

theorem pad4_inj {a b : Nat} (ha : a < 10000) (hb : b < 10000)
    (h : pad4 a = pad4 b) : a = b := by
  simp only [pad4, List.cons.injEq, and_true] at h
  obtain ⟨h1, h2, h3, h4⟩ := h
  have e1 := digitChar_inj _ (Nat.mod_lt _ (by norm_num)) _ (Nat.mod_lt _ (by norm_num)) h1
  have e2 := digitChar_inj _ (Nat.mod_lt _ (by norm_num)) _ (Nat.mod_lt _ (by norm_num)) h2
  have e3 := digitChar_inj _ (Nat.mod_lt _ (by norm_num)) _ (Nat.mod_lt _ (by norm_num)) h3
  have e4 := digitChar_inj _ (Nat.mod_lt _ (by norm_num)) _ (Nat.mod_lt _ (by norm_num)) h4
  omega

theorem pad2_inj {a b : Nat} (ha : a < 100) (hb : b < 100)
    (h : pad2 a = pad2 b) : a = b := by
  simp only [pad2, List.cons.injEq, and_true] at h
  obtain ⟨h1, h2⟩ := h
  have e1 := digitChar_inj _ (Nat.mod_lt _ (by norm_num)) _ (Nat.mod_lt _ (by norm_num)) h1
  have e2 := digitChar_inj _ (Nat.mod_lt _ (by norm_num)) _ (Nat.mod_lt _ (by norm_num)) h2
  omega

theorem formatCivil_inj {y1 m1 d1 y2 m2 d2 : Nat}
    (hy1 : y1 < 10000) (hy2 : y2 < 10000) (hm1 : m1 < 100) (hm2 : m2 < 100)
    (hd1 : d1 < 100) (hd2 : d2 < 100)
    (h : formatCivil (y1, m1, d1) = formatCivil (y2, m2, d2)) :
    y1 = y2 ∧ m1 = m2 ∧ d1 = d2 := by
  have hlist : pad4 y1 ++ '-' :: (pad2 m1 ++ '-' :: pad2 d1)
      = pad4 y2 ++ '-' :: (pad2 m2 ++ '-' :: pad2 d2) := by
    have := congrArg String.data h
    simpa [formatCivil] using this
  simp only [pad4, pad2, List.cons_append, List.nil_append, List.cons.injEq, and_true] at hlist
  obtain ⟨a1, a2, a3, a4, _, b1, b2, _, c1, c2⟩ := hlist
  refine ⟨pad4_inj hy1 hy2 ?_, pad2_inj hm1 hm2 ?_, pad2_inj hd1 hd2 ?_⟩ <;>
    simp [pad4, pad2, a1, a2, a3, a4, b1, b2, c1, c2]

/-- Day numbers in the representable range are recoverable from their
date-key strings: equal keys force equal day numbers. -/
theorem dateKeyOfDay_inj {z1 z2 : Int} (h1 : 0 ≤ z1) (h1b : z1 ≤ 2932896)
    (h2 : 0 ≤ z2) (h2b : z2 ≤ 2932896)
    (h : dateKeyOfDay z1 = dateKeyOfDay z2) : z1 = z2 := by
  obtain ⟨r1a, r1b, r1c, r1d, r1e⟩ := civilFromDays_range z1
  obtain ⟨r2a, r2b, r2c, r2d, r2e⟩ := civilFromDays_range z2
  unfold dateKeyOfDay at h
  have hc1 : civilFromDays z1 =
      ((civilFromDays z1).1, (civilFromDays z1).2.1, (civilFromDays z1).2.2) := rfl
  have hc2 : civilFromDays z2 =
      ((civilFromDays z2).1, (civilFromDays z2).2.1, (civilFromDays z2).2.2) := rfl
  rw [hc1, hc2] at h
  obtain ⟨ey, em, ed⟩ := formatCivil_inj
    (by have := r1e h1 h1b; omega) (by have := r2e h2 h2b; omega)
    (by omega) (by omega) (by omega) (by omega) h
  have hr1 := daysFromCivil_civilFromDays z1 h1
  have hr2 := daysFromCivil_civilFromDays z2 h2
  have hcomp : civilFromDays z1 = civilFromDays z2 := by
    rw [hc1, hc2, ey, em, ed]
  rw [hcomp] at hr1
  omega

theorem lookup_cons_of_beq {α : Type} {k : String} (p : String × α) (es : List (String × α))
    (h : (k == p.1) = true) : (p :: es).lookup k = some p.2 := by
  obtain ⟨a, b⟩ := p
  rw [List.lookup_cons]
  simp only at h
  rw [h]

theorem lookup_cons_of_bne {α : Type} {k : String} (p : String × α) (es : List (String × α))
    (h : (k == p.1) = false) : (p :: es).lookup k = es.lookup k := by
  obtain ⟨a, b⟩ := p
  rw [List.lookup_cons]
  simp only at h
  rw [h]

theorem lookup_map_replace {α : Type} (k : String) (v : α) :
    ∀ m : List (String × α), (m.lookup k).isSome →
      (m.map (fun p => if p.1 = k then (k, v) else p)).lookup k = some v := by
  intro m
  induction m with
  | nil => intro h; simp at h
  | cons p rest ih =>
    intro h
    rw [List.map_cons]
    by_cases hp : p.1 = k
    · rw [if_pos hp]
      exact lookup_cons_of_beq _ _ (by simp)
    · rw [if_neg hp]
      have hkp : (k == p.1) = false := by
        rw [beq_eq_false_iff_ne]; exact fun he => hp he.symm
      rw [lookup_cons_of_bne _ _ hkp]
      rw [lookup_cons_of_bne _ _ hkp] at h
      exact ih h

theorem lookup_map_replace_ne {α : Type} (k kq : String) (v : α) (hne : kq ≠ k) :
    ∀ m : List (String × α),
      (m.map (fun p => if p.1 = k then (k, v) else p)).lookup kq = m.lookup kq := by
  intro m
  induction m with
  | nil => simp
  | cons p rest ih =>
    rw [List.map_cons]
    by_cases hp : p.1 = k
    · have h2 : (kq == p.1) = false := by
        rw [beq_eq_false_iff_ne, hp]; exact hne
      rw [if_pos hp]
      rw [lookup_cons_of_bne _ _ (by rw [beq_eq_false_iff_ne]; exact hne)]
      rw [lookup_cons_of_bne _ _ h2]
      exact ih
    · rw [if_neg hp]
      cases hc : (kq == p.1) with
      | true =>
        rw [lookup_cons_of_beq _ _ hc, lookup_cons_of_beq _ _ hc]
      | false =>
        rw [lookup_cons_of_bne _ _ hc, lookup_cons_of_bne _ _ hc]
        exact ih

theorem lookup_append_single_ne {α : Type} (k kq : String) (v : α) (hne : kq ≠ k) :
    ∀ m : List (String × α), (m ++ [(k, v)]).lookup kq = m.lookup kq := by
  intro m
  induction m with
  | nil =>
    rw [List.nil_append,
      lookup_cons_of_bne _ _ (by rw [beq_eq_false_iff_ne]; exact hne)]
  | cons p rest ih =>
    rw [List.cons_append]
    cases hc : (kq == p.1) with
    | true => rw [lookup_cons_of_beq _ _ hc, lookup_cons_of_beq _ _ hc]
    | false =>
      rw [lookup_cons_of_bne _ _ hc, lookup_cons_of_bne _ _ hc]
      exact ih

theorem lookup_setKey_self {α : Type} (m : List (String × α)) (k : String) (v : α) :
    (setKey m k v).lookup k = some v := by
  unfold setKey
  split
  case isTrue h => exact lookup_map_replace k v m h
  case isFalse h =>
    induction m with
    | nil =>
      rw [List.nil_append]
      exact lookup_cons_of_beq _ _ (by simp)
    | cons p rest ih =>
      cases hc : (k == p.1) with
      | true =>
        exfalso; apply h
        rw [lookup_cons_of_beq _ _ hc]; rfl
      | false =>
        rw [lookup_cons_of_bne _ _ hc] at h
        rw [List.cons_append, lookup_cons_of_bne _ _ hc]
        exact ih h

theorem lookup_setKey_ne {α : Type} (m : List (String × α)) (k kq : String) (v : α)
    (hne : kq ≠ k) : (setKey m k v).lookup kq = m.lookup kq := by
  unfold setKey
  split
  · exact lookup_map_replace_ne k kq v hne m
  · exact lookup_append_single_ne k kq v hne m

/-! ## Claim theorems -/

theorem foldl_add_int {β : Type} (f : β → Int) (l : List β) :
    ∀ a : Int, l.foldl (fun t x => t + f x) a = a + (l.map f).sum := by
  induction l with
  | nil => intro a; simp
  | cons x xs ih =>
    intro a
    rw [List.foldl_cons, ih (a + f x), List.map_cons, List.sum_cons]
    ring

/-- C1: for every document, date-key and timestamp `now`,
`getTotalMsForDate` equals the sum of `max(0, end - start)` over the
stored segments of that date's `DayRecord`, plus `max(0, now - start)`
exactly when an open session exists with the queried date-key; it is `0`
when no `DayRecord` exists for the key. -/
theorem c1_getTotalMsForDate_correct (data : StudyData) (dateKey : String) (now : Int) :
    getTotalMsForDate data dateKey now =
      match data.days.lookup dateKey with
      | none => 0
      | some day =>
        (day.segments.map (fun seg => max 0 (seg.stop - seg.start))).sum +
          (match data.currentSession with
           | some cs => if cs.dateKey = dateKey then max 0 (now - cs.start) else 0
           | none => 0) := by
  unfold getTotalMsForDate
  cases hday : data.days.lookup dateKey with
  | none => rfl
  | some day =>
    dsimp only
    rw [foldl_add_int (fun seg => max 0 (seg.stop - seg.start)) day.segments 0, zero_add]
    cases data.currentSession with
    | none => simp
    | some cs =>
      dsimp only
      by_cases hk : cs.dateKey = dateKey
      · rw [if_pos hk, if_pos hk]
      · rw [if_neg hk, if_neg hk, add_zero]

/-- C2: from the Running state, Pause at time `end` appends the segment
`{start, end}` to the segments of the `DayRecord` named by the session's
date-key exactly when `end > start` (a pause at or before `start`
appends nothing), and clears the session in both cases; Pause while Idle
leaves the document unchanged. -/
theorem c2_handlePause_correct (data : StudyData) (endTime : Int) :
    (∀ cs, data.currentSession = some cs →
      (handlePause data endTime).days.lookup cs.dateKey =
          some ⟨((data.days.lookup cs.dateKey).getD ⟨[]⟩).segments ++
            (if cs.start < endTime then [⟨cs.start, endTime⟩] else [])⟩ ∧
        (handlePause data endTime).currentSession = none) ∧
    (data.currentSession = none → handlePause data endTime = data) := by
  constructor
  · intro cs hcs
    unfold handlePause
    rw [hcs]
    dsimp only
    refine ⟨?_, rfl⟩
    rw [lookup_setKey_self]
    by_cases hlt : cs.start < endTime
    · rw [if_pos hlt, if_pos hlt]
    · rw [if_neg hlt, if_neg hlt, List.append_nil]
  · intro hnone
    unfold handlePause
    rw [hnone]

/-- C3: a reachable document holds at most one open session: Start from
Idle at `now` opens `{ dateKey, start: now }` after ensuring a
`DayRecord` exists for that key (creating an empty one when absent),
Start while Running leaves the document unchanged, and a second Start
immediately after a first changes nothing further. -/
theorem c3_handleStart_correct (data : StudyData) (startTime : Int) :
    (data.currentSession ≠ none → handleStart data startTime = data) ∧
    (data.currentSession = none →
      (handleStart data startTime).currentSession = some ⟨getDateKey startTime, startTime⟩ ∧
      (handleStart data startTime).days.lookup (getDateKey startTime) =
        some ((data.days.lookup (getDateKey startTime)).getD ⟨[]⟩)) ∧
    (∀ t2, handleStart (handleStart data startTime) t2 = handleStart data startTime) := by
  refine ⟨?_, ?_, ?_⟩
  · intro hsome
    cases hcs : data.currentSession with
    | none => exact absurd hcs hsome
    | some cs => simp [handleStart, hcs]
  · intro hnone
    refine ⟨by simp [handleStart, hnone], ?_⟩
    cases hday : data.days.lookup (getDateKey startTime) with
    | none => simp [handleStart, hnone, hday, lookup_setKey_self]
    | some day => simp [handleStart, hnone, hday]
  · intro t2
    cases hcs : data.currentSession with
    | none =>
      have h1 : (handleStart data startTime).currentSession =
          some ⟨getDateKey startTime, startTime⟩ := by
        simp [handleStart, hcs]
      generalize hD : handleStart data startTime = D at h1 ⊢
      simp [handleStart, h1]
    | some cs =>
      have h : handleStart data startTime = data := by simp [handleStart, hcs]
      rw [h]
      simp [handleStart, hcs]

/-- C8: Reset-today empties the segment list stored under the current
calendar date-key and clears the open session exactly when that session
belongs to the same key; a session of another date, the records of every
other date-key, the todos and the settings are untouched. -/
theorem c8_handleResetToday_correct (data : StudyData) (now : Int) :
    (handleResetToday data now).days.lookup (getDateKey now) = some ⟨[]⟩ ∧
    (∀ k, k ≠ getDateKey now →
      (handleResetToday data now).days.lookup k = data.days.lookup k) ∧
    (∀ cs, data.currentSession = some cs →
      (handleResetToday data now).currentSession =
        if cs.dateKey = getDateKey now then none else some cs) ∧
    (data.currentSession = none → (handleResetToday data now).currentSession = none) ∧
    (handleResetToday data now).todos = data.todos ∧
    (handleResetToday data now).settings = data.settings := by
  refine ⟨?_, ?_, ?_, ?_, rfl, rfl⟩
  · exact lookup_setKey_self data.days (getDateKey now) ⟨[]⟩
  · intro k hk
    exact lookup_setKey_ne data.days (getDateKey now) k ⟨[]⟩ hk
  · intro cs hcs
    unfold handleResetToday
    rw [hcs]
  · intro hnone
    unfold handleResetToday
    rw [hnone]

theorem c2_handlePause_witness :
    (handlePause exampleRunningData 1704067260000).days.lookup "2024-01-01" =
        some ⟨((exampleRunningData.days.lookup "2024-01-01").getD ⟨[]⟩).segments ++
          (if (1704067200000 : Int) < 1704067260000 then
            [⟨1704067200000, 1704067260000⟩] else [])⟩ ∧
      (handlePause exampleRunningData 1704067260000).currentSession = none :=
  (c2_handlePause_correct exampleRunningData 1704067260000).1
    ⟨"2024-01-01", 1704067200000⟩ rfl

theorem c3_handleStart_witness :
    (handleStart exampleIdleData 1704067200000).currentSession =
        some ⟨getDateKey 1704067200000, 1704067200000⟩ ∧
      (handleStart exampleIdleData 1704067200000).days.lookup (getDateKey 1704067200000) =
        some ((exampleIdleData.days.lookup (getDateKey 1704067200000)).getD ⟨[]⟩) :=
  (c3_handleStart_correct exampleIdleData 1704067200000).2.1 rfl

theorem c8_handleResetToday_witness :
    (handleResetToday exampleRunningData 1704067200000).currentSession =
        (if ("2024-01-01" : String) = getDateKey 1704067200000 then none
          else some ⟨"2024-01-01", 1704067200000⟩) ∧
      (handleResetToday exampleRunningData 1704067200000).days.lookup "2023-12-31" =
        exampleRunningData.days.lookup "2023-12-31" :=
  ⟨(c8_handleResetToday_correct exampleRunningData 1704067200000).2.2.1
      ⟨"2024-01-01", 1704067200000⟩ rfl,
    (c8_handleResetToday_correct exampleRunningData 1704067200000).2.1
      "2023-12-31" (by decide)⟩

/-- C10 counterexample: adding a todo while an existing todo already has
the current timestamp as its id produces two todos with the same id, so
the assigned id is not always distinct from every existing id. -/
theorem c10_counterexample :
    ((handleAddTodo todoCollisionData " second " 5).todos.map Todo.id) = [5, 5] ∧
      ¬ ((handleAddTodo todoCollisionData " second " 5).todos.map Todo.id).Nodup := by
  exact ⟨by decide, by decide⟩

/-- C10 (amended): add-todo trims the text and leaves the document
unchanged when the trimmed text is empty; otherwise it appends exactly
one entry `{ id := now, text := trimmed, done := false }`.  The id is
the call's timestamp, so ids remain unique exactly when the timestamp
differs from every existing id (not unconditionally). -/
theorem c10_handleAddTodo_amended (data : StudyData) (newTodoText : String) (now : Int) :
    (jsTrim newTodoText = "" → handleAddTodo data newTodoText now = data) ∧
    (jsTrim newTodoText ≠ "" →
      (handleAddTodo data newTodoText now).todos =
        data.todos ++ [⟨now, jsTrim newTodoText, false⟩]) ∧
    ((∀ t ∈ data.todos, t.id ≠ now) → (data.todos.map Todo.id).Nodup →
      jsTrim newTodoText ≠ "" →
      ((handleAddTodo data newTodoText now).todos.map Todo.id).Nodup) := by
  refine ⟨?_, ?_, ?_⟩
  · intro h; simp [handleAddTodo, h]
  · intro h; simp [handleAddTodo, h]
  · intro hfresh hnodup hne
    have hnew : (data.todos.map Todo.id ++ [now]).Nodup := by
      rw [List.nodup_append]
      refine ⟨hnodup, List.nodup_singleton _, ?_⟩
      intro a ha hb
      simp only [List.mem_singleton] at hb
      subst hb
      obtain ⟨t, ht, hid⟩ := List.mem_map.mp ha
      exact hfresh t ht hid
    simpa [handleAddTodo, hne] using hnew

theorem c10_handleAddTodo_witness :
    ((handleAddTodo exampleIdleData " task " 7).todos.map Todo.id).Nodup :=
  (c10_handleAddTodo_amended exampleIdleData " task " 7).2.2
    (by intro t ht; exact absurd ht (List.not_mem_nil t)) (by decide) (by decide)

/-- C7: daily progress equals `min(100, round(100 * total / goalMs))`
when the daily goal is nonzero and `0` when the goal is `0`, and
likewise for weekly progress; the value never exceeds 100, and a total
of exactly ten times the goal yields exactly 100. -/
theorem c7_progress_correct (data : StudyData) (now : Int) :
    (dailyProgress data now =
      if ((data.settings.dailyGoalMinutes : Int) * 60 * 1000) = 0 then 0
      else min 100 (round (100 * (getTotalMsForDate data (getDateKey now) now : ℚ) /
        (((data.settings.dailyGoalMinutes : Int) * 60 * 1000 : Int) : ℚ)))) ∧
    dailyProgress data now ≤ 100 ∧
    ((data.settings.dailyGoalMinutes : Int) * 60 * 1000 = 0 → dailyProgress data now = 0) ∧
    (getTotalMsForDate data (getDateKey now) now =
        10 * ((data.settings.dailyGoalMinutes : Int) * 60 * 1000) →
      (data.settings.dailyGoalMinutes : Int) * 60 * 1000 ≠ 0 →
      dailyProgress data now = 100) ∧
    (weeklyProgress data now =
      if ((data.settings.weeklyGoalHours : Int) * 60 * 60 * 1000) = 0 then 0
      else min 100 (round (100 * (weeklyTotalMs data now : ℚ) /
        (((data.settings.weeklyGoalHours : Int) * 60 * 60 * 1000 : Int) : ℚ)))) ∧
    weeklyProgress data now ≤ 100 ∧
    ((data.settings.weeklyGoalHours : Int) * 60 * 60 * 1000 = 0 →
      weeklyProgress data now = 0) ∧
    (weeklyTotalMs data now = 10 * ((data.settings.weeklyGoalHours : Int) * 60 * 60 * 1000) →
      (data.settings.weeklyGoalHours : Int) * 60 * 60 * 1000 ≠ 0 →
      weeklyProgress data now = 100) := by
  have hdaily : ∀ (t g : Int), g ≠ 0 → t = 10 * g →
      min 100 (round ((t : ℚ) / (g : ℚ) * 100)) = 100 := by
    intro t g hg ht
    have hgq : (g : ℚ) ≠ 0 := Int.cast_ne_zero.mpr hg
    have : (t : ℚ) / (g : ℚ) * 100 = 1000 := by
      rw [ht]; push_cast; field_simp; ring
    rw [this]
    norm_num
  have hform : ∀ (t g : Int), (t : ℚ) / (g : ℚ) * 100 = 100 * (t : ℚ) / (g : ℚ) := by
    intro t g; ring
  refine ⟨?_, ?_, ?_, ?_, ?_, ?_, ?_, ?_⟩
  · unfold dailyProgress
    dsimp only
    rw [hform]
  · unfold dailyProgress
    dsimp only
    split
    · norm_num
    · exact min_le_left _ _
  · intro h
    unfold dailyProgress
    dsimp only
    rw [if_pos h]
  · intro ht hg
    unfold dailyProgress
    dsimp only
    rw [if_neg hg]
    exact hdaily _ _ hg ht
  · unfold weeklyProgress
    dsimp only
    rw [hform]
  · unfold weeklyProgress
    dsimp only
    split
    · norm_num
    · exact min_le_left _ _
  · intro h
    unfold weeklyProgress
    dsimp only
    rw [if_pos h]
  · intro ht hg
    unfold weeklyProgress
    dsimp only
    rw [if_neg hg]
    exact hdaily _ _ hg ht

theorem c7_progress_witness :
    dailyProgress tenfoldGoalData 1704067200000 = 100 :=
  (c7_progress_correct tenfoldGoalData 1704067200000).2.2.2.1 (by decide) (by decide)

theorem lookup_eq_none_of_not_mem_keys {α : Type} (k : String) :
    ∀ m : List (String × α), k ∉ m.map Prod.fst → m.lookup k = none := by
  intro m
  induction m with
  | nil => intro; rfl
  | cons p rest ih =>
    intro h
    rw [List.map_cons, List.mem_cons] at h
    push_neg at h
    rw [lookup_cons_of_bne _ _ (by rw [beq_eq_false_iff_ne]; exact h.1)]
    exact ih h.2

/-- C5: the weekly total is the sum of the live per-day totals over the
at most seven largest date-keys of `days` in descending lexicographic
string order (the most recently recorded days), not over a trailing
seven-calendar-day window; every taken key dominates every omitted key,
and a date-key absent from `days` contributes zero. -/
theorem c5_weeklyTotal_correct (data : StudyData) (now : Int) :
    weeklyTotalMs data now =
      (((allDateKeys data).take 7).map (fun k => getTotalMsForDate data k now)).sum ∧
    (allDateKeys data).Perm (data.days.map Prod.fst) ∧
    (allDateKeys data).Pairwise (fun a b => b ≤ a) ∧
    (∀ a ∈ (allDateKeys data).take 7, ∀ b ∈ (allDateKeys data).drop 7, b ≤ a) ∧
    (∀ k, k ∉ data.days.map Prod.fst → getTotalMsForDate data k now = 0) := by
  have hpair : (allDateKeys data).Pairwise (fun a b => b ≤ a) := by
    have hs := @List.sorted_mergeSort String
      (fun a b : String => decide (b ≤ a))
      (fun a b c h1 h2 =>
        decide_eq_true (le_trans (of_decide_eq_true h2) (of_decide_eq_true h1)))
      (fun a b => by rcases le_total b a with h | h <;> simp [h])
      (data.days.map Prod.fst)
    exact hs.imp (fun h => of_decide_eq_true h)
  refine ⟨?_, ?_, hpair, ?_, ?_⟩
  · unfold weeklyTotalMs historyItems
    rw [foldl_add_int Prod.snd]
    simp only [List.map_map, zero_add, List.map_take]
    rfl
  · exact List.mergeSort_perm _ _
  · have hp := hpair
    rw [← List.take_append_drop 7 (allDateKeys data), List.pairwise_append] at hp
    exact fun a ha b hb => hp.2.2 a ha b hb
  · intro k hk
    unfold getTotalMsForDate
    rw [lookup_eq_none_of_not_mem_keys k data.days hk]

theorem streakLoop_le (data : StudyData) (now : Int) :
    ∀ fuel z, streakLoop data now z fuel ≤ fuel := by
  intro fuel
  induction fuel with
  | zero => intro z; simp [streakLoop]
  | succ m ih =>
    intro z
    simp only [streakLoop]
    split
    · have := ih (z - 1); omega
    · omega

theorem streakLoop_spec (data : StudyData) (now : Int) :
    ∀ fuel z,
      (∀ j : Nat, j < streakLoop data now z fuel →
        PRODUCTIVE_MINUTES_FOR_STREAK * 60 * 1000 ≤
          getTotalMsForDate data (dateKeyOfDay (z - j)) now) ∧
      (streakLoop data now z fuel < fuel →
        getTotalMsForDate data (dateKeyOfDay (z - streakLoop data now z fuel)) now <
          PRODUCTIVE_MINUTES_FOR_STREAK * 60 * 1000) := by
  intro fuel
  induction fuel with
  | zero =>
    intro z
    constructor
    · intro j hj; simp [streakLoop] at hj
    · intro h; simp [streakLoop] at h
  | succ m ih =>
    intro z
    constructor
    · intro j hj
      simp only [streakLoop] at hj
      by_cases hc : PRODUCTIVE_MINUTES_FOR_STREAK * 60 * 1000 ≤
          getTotalMsForDate data (dateKeyOfDay z) now
      · rw [if_pos hc] at hj
        cases j with
        | zero => simpa using hc
        | succ jp =>
          have hjp : jp < streakLoop data now (z - 1) m := by omega
          have hres := (ih (z - 1)).1 jp hjp
          have heq : z - 1 - (jp : Int) = z - ((jp + 1 : Nat) : Int) := by push_cast; ring
          rwa [heq] at hres
      · rw [if_neg hc] at hj
        omega
    · intro hlt
      simp only [streakLoop] at hlt ⊢
      by_cases hc : PRODUCTIVE_MINUTES_FOR_STREAK * 60 * 1000 ≤
          getTotalMsForDate data (dateKeyOfDay z) now
      · rw [if_pos hc] at hlt ⊢
        have hlt2 : streakLoop data now (z - 1) m < m := by omega
        have hres := (ih (z - 1)).2 hlt2
        have heq : z - 1 - ((streakLoop data now (z - 1) m : Nat) : Int) =
            z - ((streakLoop data now (z - 1) m + 1 : Nat) : Int) := by push_cast; ring
        rwa [heq] at hres
      · rw [if_neg hc] at hlt ⊢
        simpa using hc

/-- C6: the streak counts consecutive calendar days, today first and
walking one day back at a time with a 365-iteration cap, whose live
total meets the 30-minute threshold, stopping at the first day below
it; with daily totals of 35, 40, 10 and 50 minutes for today back
through three days ago the streak is 2, and a today below the threshold
gives streak 0. -/
theorem c6_streak_correct :
    (∀ (data : StudyData) (now : Int),
      computeCurrentStreak data now ≤ 365 ∧
      (∀ j : Nat, j < computeCurrentStreak data now →
        PRODUCTIVE_MINUTES_FOR_STREAK * 60 * 1000 ≤
          getTotalMsForDate data (dateKeyOfDay (now / 86400000 - j)) now) ∧
      (computeCurrentStreak data now < 365 →
        getTotalMsForDate data
            (dateKeyOfDay (now / 86400000 - computeCurrentStreak data now)) now <
          PRODUCTIVE_MINUTES_FOR_STREAK * 60 * 1000)) ∧
    computeCurrentStreak streakExampleData 1704067200000 = 2 ∧
    computeCurrentStreak streakExampleData 1703894400000 = 0 := by
  refine ⟨?_, by decide, by decide⟩
  intro data now
  exact ⟨streakLoop_le data now 365 _, (streakLoop_spec data now 365 _).1,
    (streakLoop_spec data now 365 _).2⟩

theorem c6_streak_witness :
    PRODUCTIVE_MINUTES_FOR_STREAK * 60 * 1000 ≤
      getTotalMsForDate streakExampleData
        (dateKeyOfDay (1704067200000 / 86400000 - ((0 : Nat) : Int))) 1704067200000 :=
  (c6_streak_correct.1 streakExampleData 1704067200000).2.1 0 (by decide)

/-- C9 counterexample: in a local zone at UTC-5 (offset -300 minutes),
the timestamps 2024-01-02T04:30Z and 2024-01-01T05:30Z fall in the same
local calendar day (2024-01-01 local), yet `getDateKey` assigns them
different keys, because it formats the UTC day via `toISOString`. -/
theorem c9_counterexample :
    localDayNumber (-300) 1704169800000 = localDayNumber (-300) 1704087000000 ∧
      getDateKey 1704169800000 ≠ getDateKey 1704087000000 := by
  exact ⟨by decide, by decide⟩

/-- C9 (amended): the date-key derived by `getDateKey` is the
`YYYY-MM-DD` string of the **UTC** calendar day containing the
timestamp (the local calendar day of an offset-zero zone): two
timestamps in the representable range receive the same key exactly when
they fall in the same UTC calendar day.  For non-UTC local zones this
does not coincide with the local calendar day. -/
theorem c9_getDateKey_utc_amended (t1 t2 : Int)
    (h1 : 0 ≤ t1) (h1b : t1 < 253402300800000)
    (h2 : 0 ≤ t2) (h2b : t2 < 253402300800000) :
    getDateKey t1 = getDateKey t2 ↔ localDayNumber 0 t1 = localDayNumber 0 t2 := by
  have hl : ∀ t : Int, localDayNumber 0 t = t / 86400000 := by
    intro t; unfold localDayNumber; norm_num
  rw [hl, hl]
  constructor
  · intro h
    exact dateKeyOfDay_inj (by omega) (by omega) (by omega) (by omega) h
  · intro h
    unfold getDateKey
    rw [h]

theorem c9_getDateKey_utc_witness :
    getDateKey 1704169800000 = getDateKey 1704153600000 ↔
      localDayNumber 0 1704169800000 = localDayNumber 0 1704153600000 :=
  c9_getDateKey_utc_amended 1704169800000 1704153600000
    (by decide) (by decide) (by decide) (by decide)

/-! ### Association-list and property lemmas for the load path -/

theorem setKey_eq_of_isSome {α : Type} {m : List (String × α)} {k : String} {v : α}
    (h : (m.lookup k).isSome) :
    setKey m k v = m.map (fun p => if p.1 = k then (k, v) else p) := by
  unfold setKey
  rw [if_pos h]

theorem setKey_eq_of_none {α : Type} {m : List (String × α)} {k : String} {v : α}
    (h : m.lookup k = none) : setKey m k v = m ++ [(k, v)] := by
  unfold setKey
  rw [if_neg (by rw [h]; simp)]

theorem lookup_none_no_key {α : Type} (k : String) :
    ∀ m : List (String × α), m.lookup k = none → ∀ p ∈ m, p.1 ≠ k := by
  intro m
  induction m with
  | nil => intro _ p hp; cases hp
  | cons q rest ih =>
    intro h p hp
    cases hc : (k == q.1) with
    | true => rw [lookup_cons_of_beq _ _ hc] at h; cases h
    | false =>
      rw [lookup_cons_of_bne _ _ hc] at h
      rcases List.mem_cons.mp hp with h1 | h1
      · subst h1
        rw [beq_eq_false_iff_ne] at hc
        exact fun he => hc he.symm
      · exact ih h p h1

theorem map_replace_replace {α : Type} (k : String) (v w : α) :
    ∀ m : List (String × α),
      ((m.map (fun p => if p.1 = k then (k, v) else p)).map
        (fun p => if p.1 = k then (k, w) else p)) =
        m.map (fun p => if p.1 = k then (k, w) else p) := by
  intro m
  induction m with
  | nil => rfl
  | cons p rest ih =>
    rw [List.map_cons, List.map_cons, List.map_cons]
    by_cases hp : p.1 = k
    · rw [if_pos hp, if_pos hp, if_pos (show (k, v).1 = k from rfl), ih]
    · rw [if_neg hp, if_neg hp, ih]

theorem map_replace_id {α : Type} (k : String) (w : α) :
    ∀ m : List (String × α), m.lookup k = none →
      m.map (fun p => if p.1 = k then (k, w) else p) = m := by
  intro m
  induction m with
  | nil => intro; rfl
  | cons p rest ih =>
    intro h
    cases hc : (k == p.1) with
    | true => rw [lookup_cons_of_beq _ _ hc] at h; cases h
    | false =>
      rw [lookup_cons_of_bne _ _ hc] at h
      rw [beq_eq_false_iff_ne] at hc
      rw [List.map_cons, if_neg (fun he => hc he.symm), ih h]

theorem setKey_setKey {α : Type} (k : String) (v w : α) (m : List (String × α)) :
    setKey (setKey m k v) k w = setKey m k w := by
  have hself : ((setKey m k v).lookup k).isSome := by
    rw [lookup_setKey_self]; rfl
  cases hm : m.lookup k with
  | some x =>
    have hs : (m.lookup k).isSome := by rw [hm]; rfl
    rw [setKey_eq_of_isSome hself, setKey_eq_of_isSome hs, setKey_eq_of_isSome hs,
      map_replace_replace]
  | none =>
    rw [setKey_eq_of_isSome hself, setKey_eq_of_none hm, setKey_eq_of_none hm,
      List.map_append, map_replace_id k w m hm, List.map_cons,
      if_pos (show (k, v).1 = k from rfl)]
    rfl

theorem map_replace_id_of_all {α : Type} (k : String) (x : α) :
    ∀ m : List (String × α), (∀ p ∈ m, p.1 = k → p.2 = x) →
      m.map (fun p => if p.1 = k then (k, x) else p) = m := by
  intro m
  induction m with
  | nil => intro; rfl
  | cons p rest ih =>
    intro hall
    rw [List.map_cons]
    by_cases hp : p.1 = k
    · have hx : p.2 = x := hall p (List.mem_cons_self p rest) hp
      have hpe : ((k, x) : String × α) = p := by
        rw [← hp, ← hx]
      rw [if_pos hp, ih (fun q hq hqk => hall q (List.mem_cons_of_mem p hq) hqk), hpe]
    · rw [if_neg hp, ih (fun q hq hqk => hall q (List.mem_cons_of_mem p hq) hqk)]

theorem setKey_id {α : Type} (k : String) (x : α) (m : List (String × α))
    (hall : ∀ p ∈ m, p.1 = k → p.2 = x) (hsome : (m.lookup k).isSome) :
    setKey m k x = m := by
  rw [setKey_eq_of_isSome hsome, map_replace_id_of_all k x m hall]

theorem setKey_all_self {α : Type} (m : List (String × α)) (k : String) (v : α) :
    ∀ p ∈ setKey m k v, p.1 = k → p.2 = v := by
  intro p hp hpk
  unfold setKey at hp
  split at hp
  · obtain ⟨q, hq, hfq⟩ := List.mem_map.mp hp
    by_cases hqk : q.1 = k
    · rw [if_pos hqk] at hfq
      rw [← hfq]
    · rw [if_neg hqk] at hfq
      rw [← hfq] at hpk
      exact absurd hpk hqk
  · rcases List.mem_append.mp hp with h | h
    · next hnone =>
      have : m.lookup k = none := by
        cases hm : m.lookup k with
        | none => rfl
        | some x => rw [hm] at hnone; exact absurd rfl hnone
      exact absurd hpk (lookup_none_no_key k m this p h)
    · rw [List.mem_singleton] at h
      rw [h]

theorem setKey_all_other {α : Type} (m : List (String × α)) (k kq : String) (v w : α)
    (hne : k ≠ kq) (hall : ∀ p ∈ m, p.1 = kq → p.2 = w) :
    ∀ p ∈ setKey m k v, p.1 = kq → p.2 = w := by
  intro p hp hpk
  unfold setKey at hp
  split at hp
  · obtain ⟨q, hq, hfq⟩ := List.mem_map.mp hp
    by_cases hqk : q.1 = k
    · rw [if_pos hqk] at hfq
      rw [← hfq] at hpk
      exact absurd hpk hne
    · rw [if_neg hqk] at hfq
      rw [← hfq] at hpk ⊢
      exact hall q hq hpk
  · rcases List.mem_append.mp hp with h | h
    · exact hall p h hpk
    · rw [List.mem_singleton] at h
      rw [h] at hpk
      exact absurd hpk hne

theorem map_replace_keys {α : Type} (k : String) (v : α) :
    ∀ m : List (String × α),
      (m.map (fun p => if p.1 = k then (k, v) else p)).map Prod.fst = m.map Prod.fst := by
  intro m
  induction m with
  | nil => rfl
  | cons p rest ih =>
    rw [List.map_cons, List.map_cons, List.map_cons]
    by_cases hp : p.1 = k
    · rw [if_pos hp, ih, ← hp]
    · rw [if_neg hp, ih]

theorem not_mem_keys_of_lookup_none {α : Type} (k : String) (m : List (String × α))
    (h : m.lookup k = none) : k ∉ m.map Prod.fst := by
  intro hmem
  obtain ⟨p, hp, hpk⟩ := List.mem_map.mp hmem
  exact lookup_none_no_key k m h p hp hpk

theorem defaultsShaped_defaults : DefaultsShaped defaultSettingsProps :=
  ⟨.num 240, .num 20, [], rfl, by simp, by simp, by simp⟩

theorem defaultsShaped_setKey (m : List (String × JValue)) (k : String) (v : JValue)
    (h : DefaultsShaped m) : DefaultsShaped (setKey m k v) := by
  obtain ⟨a, b, rest, heq, hnodup, hd, hw⟩ := h
  subst heq
  by_cases hk1 : k = "dailyGoalMinutes"
  · subst hk1
    have hs : ((("dailyGoalMinutes", a) :: ("weeklyGoalHours", b) :: rest).lookup
        "dailyGoalMinutes").isSome := by
      rw [lookup_cons_of_beq _ _ (by simp)]; rfl
    rw [setKey_eq_of_isSome hs, List.map_cons, List.map_cons, if_pos rfl,
      if_neg (show ¬ (("weeklyGoalHours", b) : String × JValue).1 = "dailyGoalMinutes" from
        fun he => absurd (show "weeklyGoalHours" = "dailyGoalMinutes" from he) (by decide)),
      map_replace_id _ _ rest (lookup_eq_none_of_not_mem_keys _ rest hd)]
    exact ⟨v, b, rest, rfl, hnodup, hd, hw⟩
  · by_cases hk2 : k = "weeklyGoalHours"
    · subst hk2
      have hs : ((("dailyGoalMinutes", a) :: ("weeklyGoalHours", b) :: rest).lookup
          "weeklyGoalHours").isSome := by
        rw [lookup_cons_of_bne _ _ (by simp), lookup_cons_of_beq _ _ (by simp)]; rfl
      rw [setKey_eq_of_isSome hs, List.map_cons, List.map_cons,
        if_neg (show ¬ (("dailyGoalMinutes", a) : String × JValue).1 = "weeklyGoalHours" from
          fun he => absurd (show "dailyGoalMinutes" = "weeklyGoalHours" from he) (by decide)),
        if_pos rfl,
        map_replace_id _ _ rest (lookup_eq_none_of_not_mem_keys _ rest hw)]
      exact ⟨a, v, rest, rfl, hnodup, hd, hw⟩
    · cases hs : (("dailyGoalMinutes", a) :: ("weeklyGoalHours", b) :: rest).lookup k with
      | some x =>
        have hs2 : ((("dailyGoalMinutes", a) :: ("weeklyGoalHours", b) :: rest).lookup
            k).isSome := by rw [hs]; rfl
        rw [setKey_eq_of_isSome hs2, List.map_cons, List.map_cons,
          if_neg (fun he => hk1 he.symm), if_neg (fun he => hk2 he.symm)]
        refine ⟨a, b, rest.map (fun p => if p.1 = k then (k, v) else p), rfl, ?_, ?_, ?_⟩
        · rw [map_replace_keys]; exact hnodup
        · rw [map_replace_keys]; exact hd
        · rw [map_replace_keys]; exact hw
      | none =>
        rw [setKey_eq_of_none hs]
        have hknotin : k ∉ rest.map Prod.fst := by
          rw [lookup_cons_of_bne _ _ (by rw [beq_eq_false_iff_ne]; exact hk1),
            lookup_cons_of_bne _ _ (by rw [beq_eq_false_iff_ne]; exact hk2)] at hs
          exact not_mem_keys_of_lookup_none k rest hs
        refine ⟨a, b, rest ++ [(k, v)], by simp, ?_, ?_, ?_⟩
        · rw [List.map_append, List.nodup_append]
          refine ⟨hnodup, by simp, ?_⟩
          intro x hx hx2
          simp only [List.map_cons, List.map_nil, List.mem_singleton] at hx2
          subst hx2
          exact hknotin hx
        · rw [List.map_append, List.mem_append]
          rintro (h1 | h1)
          · exact hd h1
          · simp only [List.map_cons, List.map_nil, List.mem_singleton] at h1
            exact hk1 h1.symm
        · rw [List.map_append, List.mem_append]
          rintro (h1 | h1)
          · exact hw h1
          · simp only [List.map_cons, List.map_nil, List.mem_singleton] at h1
            exact hk2 h1.symm

theorem defaultsShaped_foldl (X : List (String × JValue)) :
    ∀ acc, DefaultsShaped acc →
      DefaultsShaped (X.foldl (fun a kv => setKey a kv.1 kv.2) acc) := by
  induction X with
  | nil => intro acc h; exact h
  | cons p rest ih =>
    intro acc h
    rw [List.foldl_cons]
    exact ih _ (defaultsShaped_setKey acc p.1 p.2 h)

theorem foldl_setKey_fresh :
    ∀ (rest : List (String × JValue)) (acc : List (String × JValue)),
      (∀ p ∈ rest, acc.lookup p.1 = none) → (rest.map Prod.fst).Nodup →
      rest.foldl (fun a kv => setKey a kv.1 kv.2) acc = acc ++ rest := by
  intro rest
  induction rest with
  | nil => intro acc _ _; simp
  | cons p rs ih =>
    intro acc hfresh hnodup
    obtain ⟨ka, va⟩ := p
    rw [List.foldl_cons]
    have hstep : setKey acc ka va = acc ++ [(ka, va)] :=
      setKey_eq_of_none (hfresh (ka, va) (List.mem_cons_self _ _))
    rw [hstep, ih (acc ++ [(ka, va)]) ?_ ?_, List.append_assoc]
    · rfl
    · intro q hq
      have hqka : q.1 ≠ ka := by
        rw [List.map_cons, List.nodup_cons] at hnodup
        intro he
        have hmem : q.1 ∈ rs.map Prod.fst := List.mem_map_of_mem Prod.fst hq
        rw [he] at hmem
        exact hnodup.1 hmem
      rw [lookup_append_single_ne ka q.1 va hqka acc]
      exact hfresh q (List.mem_cons_of_mem _ hq)
    · rw [List.map_cons, List.nodup_cons] at hnodup
      exact hnodup.2

theorem mergeProps_shaped_fix (m : List (String × JValue)) (h : DefaultsShaped m) :
    mergeProps defaultSettingsProps m = m := by
  obtain ⟨a, b, rest, heq, hnodup, hd, hw⟩ := h
  subst heq
  unfold mergeProps
  rw [List.foldl_cons, List.foldl_cons]
  have h1 : setKey defaultSettingsProps "dailyGoalMinutes" a =
      [("dailyGoalMinutes", a), ("weeklyGoalHours", JValue.num 20)] := by
    rw [setKey_eq_of_isSome (by decide)]
    rfl
  have h2 : setKey [("dailyGoalMinutes", a), ("weeklyGoalHours", JValue.num 20)]
      "weeklyGoalHours" b = [("dailyGoalMinutes", a), ("weeklyGoalHours", b)] := by
    have hs : (([("dailyGoalMinutes", a), ("weeklyGoalHours", JValue.num 20)] :
        List (String × JValue)).lookup "weeklyGoalHours").isSome := by
      rw [lookup_cons_of_bne _ _ (by simp), lookup_cons_of_beq _ _ (by simp)]; rfl
    rw [setKey_eq_of_isSome hs]
    rfl
  dsimp only
  rw [h1, h2]
  have hside : ∀ p ∈ rest,
      (([("dailyGoalMinutes", a), ("weeklyGoalHours", b)] :
        List (String × JValue)).lookup p.1) = none := by
    intro q hq
    have hq1 : q.1 ≠ "dailyGoalMinutes" := by
      intro he
      have hmem : q.1 ∈ rest.map Prod.fst := List.mem_map_of_mem Prod.fst hq
      rw [he] at hmem
      exact hd hmem
    have hq2 : q.1 ≠ "weeklyGoalHours" := by
      intro he
      have hmem : q.1 ∈ rest.map Prod.fst := List.mem_map_of_mem Prod.fst hq
      rw [he] at hmem
      exact hw hmem
    rw [lookup_cons_of_bne _ _ (by rw [beq_eq_false_iff_ne]; exact hq1),
      lookup_cons_of_bne _ _ (by rw [beq_eq_false_iff_ne]; exact hq2)]
    rfl
  rw [foldl_setKey_fresh rest [("dailyGoalMinutes", a), ("weeklyGoalHours", b)] hside hnodup]
  rfl

theorem mergeProps_defaults_idem (X : List (String × JValue)) :
    mergeProps defaultSettingsProps (mergeProps defaultSettingsProps X) =
      mergeProps defaultSettingsProps X :=
  mergeProps_shaped_fix _ (defaultsShaped_foldl X defaultSettingsProps defaultsShaped_defaults)

theorem truthy_typeofObject_eq (v : JValue) :
    (truthy v && typeofObject v) = isObjOrArr v := by
  cases v <;> simp [truthy, typeofObject, isObjOrArr]

theorem getField_setField_self (v : JValue) (k : String) (w : JValue)
    (h : isObjOrArr v = true) : getField (setField v k w) k = some w := by
  cases v
  case obj props => exact lookup_setKey_self props k w
  case arr es props => exact lookup_setKey_self props k w
  all_goals simp [isObjOrArr] at h

theorem getField_setField_ne (v : JValue) (k kq : String) (w : JValue) (h : kq ≠ k) :
    getField (setField v k w) kq = getField v kq := by
  cases v
  case obj props => exact lookup_setKey_ne props k kq w h
  case arr es props => exact lookup_setKey_ne props k kq w h
  all_goals rfl

theorem isObjOrArr_setField (v : JValue) (k : String) (w : JValue) :
    isObjOrArr (setField v k w) = isObjOrArr v := by
  cases v <;> rfl

theorem elemsOf_setField (v : JValue) (k : String) (w : JValue) :
    elemsOf (setField v k w) = elemsOf v := by
  cases v <;> rfl

theorem propsOf_setField (v : JValue) (k : String) (w : JValue) (h : isObjOrArr v = true) :
    propsOf (setField v k w) = setKey (propsOf v) k w := by
  cases v
  case obj props => rfl
  case arr es props => rfl
  all_goals simp [isObjOrArr] at h

theorem setField_setField (v : JValue) (k : String) (w1 w2 : JValue) :
    setField (setField v k w1) k w2 = setField v k w2 := by
  cases v
  case obj props =>
    show JValue.obj (setKey (setKey props k w1) k w2) = JValue.obj (setKey props k w2)
    rw [setKey_setKey]
  case arr es props =>
    show JValue.arr es (setKey (setKey props k w1) k w2) = JValue.arr es (setKey props k w2)
    rw [setKey_setKey]
  all_goals rfl

theorem setField_id (v : JValue) (k : String) (x : JValue) (h : isObjOrArr v = true)
    (hall : ∀ p ∈ propsOf v, p.1 = k → p.2 = x) (hsome : (getField v k).isSome) :
    setField v k x = v := by
  cases v
  case obj props =>
    show JValue.obj (setKey props k x) = JValue.obj props
    rw [setKey_id k x props hall hsome]
  case arr es props =>
    show JValue.arr es (setKey props k x) = JValue.arr es props
    rw [setKey_id k x props hall hsome]
  all_goals simp [isObjOrArr] at h

theorem repairDays_other (v : JValue) (kq : String) (h : kq ≠ "days") :
    getField (repairDays v) kq = getField v kq := by
  unfold repairDays
  split
  · rfl
  · exact getField_setField_ne v "days" kq (.obj []) h

theorem repairTodos_other (v : JValue) (kq : String) (h : kq ≠ "todos") :
    getField (repairTodos v) kq = getField v kq := by
  unfold repairTodos
  split
  · rfl
  · exact getField_setField_ne v "todos" kq (.arr [] []) h

theorem repairSettings_other (v : JValue) (kq : String) (h : kq ≠ "settings") :
    getField (repairSettings v) kq = getField v kq := by
  unfold repairSettings
  split
  · exact getField_setField_ne v "settings" kq _ h
  · exact getField_setField_ne v "settings" kq _ h

theorem repairDays_isObjOrArr (v : JValue) : isObjOrArr (repairDays v) = isObjOrArr v := by
  unfold repairDays
  split
  · rfl
  · exact isObjOrArr_setField v "days" (.obj [])

theorem repairTodos_isObjOrArr (v : JValue) : isObjOrArr (repairTodos v) = isObjOrArr v := by
  unfold repairTodos
  split
  · rfl
  · exact isObjOrArr_setField v "todos" (.arr [] [])

theorem repairSettings_isObjOrArr (v : JValue) :
    isObjOrArr (repairSettings v) = isObjOrArr v := by
  unfold repairSettings
  split
  · exact isObjOrArr_setField v "settings" _
  · exact isObjOrArr_setField v "settings" _

theorem repairDays_elems (v : JValue) : elemsOf (repairDays v) = elemsOf v := by
  unfold repairDays
  split
  · rfl
  · exact elemsOf_setField v "days" (.obj [])

theorem repairTodos_elems (v : JValue) : elemsOf (repairTodos v) = elemsOf v := by
  unfold repairTodos
  split
  · rfl
  · exact elemsOf_setField v "todos" (.arr [] [])

theorem repairSettings_elems (v : JValue) : elemsOf (repairSettings v) = elemsOf v := by
  unfold repairSettings
  split
  · exact elemsOf_setField v "settings" _
  · exact elemsOf_setField v "settings" _

theorem repairDays_days (v : JValue) (h : isObjOrArr v = true) :
    getField (repairDays v) "days" =
      if truthyOpt (getField v "days") && typeofObjectOpt (getField v "days")
      then getField v "days" else some (.obj []) := by
  unfold repairDays
  split
  case isTrue hc => rfl
  case isFalse hc => exact getField_setField_self v "days" (.obj []) h

theorem repairTodos_todos (v : JValue) (h : isObjOrArr v = true) :
    getField (repairTodos v) "todos" =
      if isArrayOpt (getField v "todos")
      then getField v "todos" else some (.arr [] []) := by
  unfold repairTodos
  split
  case isTrue hc => rfl
  case isFalse hc => exact getField_setField_self v "todos" (.arr [] []) h

theorem repairSettings_shape (v : JValue) :
    ∃ ps, repairSettings v = setField v "settings" (JValue.obj ps) ∧
      JValue.obj ps =
        (if truthyOpt (getField v "settings") && typeofObjectOpt (getField v "settings")
          then JValue.obj (mergeProps defaultSettingsProps
            (spreadProps ((getField v "settings").getD .null)))
          else getDefaultSettings) ∧
      DefaultsShaped ps := by
  unfold repairSettings
  split
  case isTrue hc =>
    exact ⟨mergeProps defaultSettingsProps (spreadProps ((getField v "settings").getD .null)),
      rfl, rfl, defaultsShaped_foldl _ _ defaultsShaped_defaults⟩
  case isFalse hc =>
    exact ⟨defaultSettingsProps, rfl, rfl, defaultsShaped_defaults⟩

theorem loadInitialData_desc (v : JValue) (hv : (truthy v && typeofObject v) = true) :
    ∃ ps,
      loadInitialData (.parsed v) =
        setField (setField (repairTodos (repairDays v)) "settings" (JValue.obj ps))
          "version" (.num 3) ∧
      DefaultsShaped ps ∧
      JValue.obj ps =
        (if truthyOpt (getField v "settings") && typeofObjectOpt (getField v "settings")
          then JValue.obj (mergeProps defaultSettingsProps
            (spreadProps ((getField v "settings").getD .null)))
          else getDefaultSettings) ∧
      getField (loadInitialData (.parsed v)) "days" =
        (if truthyOpt (getField v "days") && typeofObjectOpt (getField v "days")
          then getField v "days" else some (.obj [])) ∧
      getField (loadInitialData (.parsed v)) "todos" =
        (if isArrayOpt (getField v "todos") then getField v "todos" else some (.arr [] [])) ∧
      getField (loadInitialData (.parsed v)) "settings" = some (JValue.obj ps) ∧
      getField (loadInitialData (.parsed v)) "version" = some (.num 3) ∧
      (∀ k, k ≠ "days" → k ≠ "todos" → k ≠ "settings" → k ≠ "version" →
        getField (loadInitialData (.parsed v)) k = getField v k) ∧
      elemsOf (loadInitialData (.parsed v)) = elemsOf v ∧
      isObjOrArr (loadInitialData (.parsed v)) = true ∧
      (∀ p ∈ propsOf (loadInitialData (.parsed v)), p.1 = "settings" →
        p.2 = JValue.obj ps) := by
  have hvo : isObjOrArr v = true := by rw [← truthy_typeofObject_eq]; exact hv
  have hw1o : isObjOrArr (repairDays v) = true := by rw [repairDays_isObjOrArr]; exact hvo
  have hw2o : isObjOrArr (repairTodos (repairDays v)) = true := by
    rw [repairTodos_isObjOrArr]; exact hw1o
  obtain ⟨ps, hrs, hpsval, hshaped⟩ := repairSettings_shape (repairTodos (repairDays v))
  have hL : loadInitialData (.parsed v) =
      setField (setField (repairTodos (repairDays v)) "settings" (JValue.obj ps))
        "version" (.num 3) := by
    unfold loadInitialData
    dsimp only
    rw [if_neg (show ¬¬((truthy v && typeofObject v) = true) from fun hn => hn hv), hrs]
  have hw3o : isObjOrArr
      (setField (repairTodos (repairDays v)) "settings" (JValue.obj ps)) = true := by
    rw [isObjOrArr_setField]; exact hw2o
  have hpsv : JValue.obj ps =
      (if truthyOpt (getField v "settings") && typeofObjectOpt (getField v "settings")
        then JValue.obj (mergeProps defaultSettingsProps
          (spreadProps ((getField v "settings").getD .null)))
        else getDefaultSettings) := by
    rw [hpsval, repairTodos_other _ _ (by decide), repairDays_other _ _ (by decide)]
  refine ⟨ps, hL, hshaped, hpsv, ?_, ?_, ?_, ?_, ?_, ?_, ?_, ?_⟩
  · rw [hL, getField_setField_ne _ _ _ _ (by decide : ("days" : String) ≠ "version"),
      getField_setField_ne _ _ _ _ (by decide : ("days" : String) ≠ "settings"),
      repairTodos_other _ _ (by decide), repairDays_days v hvo]
  · rw [hL, getField_setField_ne _ _ _ _ (by decide : ("todos" : String) ≠ "version"),
      getField_setField_ne _ _ _ _ (by decide : ("todos" : String) ≠ "settings"),
      repairTodos_todos _ hw1o, repairDays_other _ _ (by decide)]
  · rw [hL, getField_setField_ne _ _ _ _ (by decide : ("settings" : String) ≠ "version"),
      getField_setField_self _ _ _ hw2o]
  · rw [hL, getField_setField_self _ _ _ hw3o]
  · intro k hk1 hk2 hk3 hk4
    rw [hL, getField_setField_ne _ _ _ _ hk4, getField_setField_ne _ _ _ _ hk3,
      repairTodos_other _ _ hk2, repairDays_other _ _ hk1]
  · rw [hL, elemsOf_setField, elemsOf_setField, repairTodos_elems, repairDays_elems]
  · rw [hL, isObjOrArr_setField]; exact hw3o
  · have hall2 : ∀ q ∈ propsOf
        (setField (repairTodos (repairDays v)) "settings" (JValue.obj ps)),
        q.1 = "settings" → q.2 = JValue.obj ps := by
      rw [propsOf_setField _ _ _ hw2o]
      exact setKey_all_self _ _ _
    rw [hL, propsOf_setField _ _ _ hw3o]
    exact setKey_all_other _ "version" "settings" _ _ (by decide) hall2

/-- C4 counterexample: a stored document carrying `version: 2` is loaded
with its `version` field overwritten to `3`, so not all content outside
`days`, `todos` and `settings` is kept. -/
theorem c4_counterexample :
    getField versionTwoBlob "version" = some (.num 2) ∧
      getField (loadInitialData (.parsed versionTwoBlob)) "version" = some (.num 3) ∧
      getField (loadInitialData (.parsed versionTwoBlob)) "version" ≠
        getField versionTwoBlob "version" := by
  refine ⟨rfl, rfl, ?_⟩
  intro h
  have h2 : some (JValue.num 3) = some (JValue.num 2) := h
  injection h2 with h3
  injection h3 with h4
  norm_num at h4

/-- C4 (amended): loading never raises and a missing, empty or
unparseable blob, or a parsed value that is not object-typed, yields the
empty document; a parsed object (or array) keeps its content except
that a falsy or non-object `days` becomes `{}`, a non-array `todos`
becomes `[]`, a falsy or non-object `settings` becomes the defaults and
an object-typed `settings` has the defaults merged in field-by-field,
and `version` is always overwritten to `3`; loading an already-loaded
document changes nothing. -/
theorem c4_loadInitialData_amended :
    (loadInitialData .missing = getEmptyData ∧ loadInitialData .empty = getEmptyData ∧
      loadInitialData .unparseable = getEmptyData) ∧
    (∀ v : JValue, (truthy v && typeofObject v) = false →
      loadInitialData (.parsed v) = getEmptyData) ∧
    (∀ v : JValue, (truthy v && typeofObject v) = true →
      getField (loadInitialData (.parsed v)) "days" =
        (if truthyOpt (getField v "days") && typeofObjectOpt (getField v "days")
          then getField v "days" else some (.obj [])) ∧
      getField (loadInitialData (.parsed v)) "todos" =
        (if isArrayOpt (getField v "todos") then getField v "todos" else some (.arr [] [])) ∧
      getField (loadInitialData (.parsed v)) "settings" =
        some (if truthyOpt (getField v "settings") && typeofObjectOpt (getField v "settings")
          then JValue.obj (mergeProps defaultSettingsProps
            (spreadProps ((getField v "settings").getD .null)))
          else getDefaultSettings) ∧
      getField (loadInitialData (.parsed v)) "version" = some (.num 3) ∧
      (∀ k, k ≠ "days" → k ≠ "todos" → k ≠ "settings" → k ≠ "version" →
        getField (loadInitialData (.parsed v)) k = getField v k) ∧
      elemsOf (loadInitialData (.parsed v)) = elemsOf v) ∧
    (∀ b : StoredBlob, loadInitialData (.parsed (loadInitialData b)) = loadInitialData b) := by
  have hfix : loadInitialData (.parsed getEmptyData) = getEmptyData := rfl
  refine ⟨⟨rfl, rfl, rfl⟩, ?_, ?_, ?_⟩
  · intro v hv
    unfold loadInitialData
    dsimp only
    rw [if_pos (show ¬((truthy v && typeofObject v) = true) from by rw [hv]; simp)]
  · intro v hv
    obtain ⟨ps, hL, hshaped, hpsv, hdays, htodos, hsettings, hversion, hother, helems,
      hobj, hall⟩ := loadInitialData_desc v hv
    exact ⟨hdays, htodos, by rw [hsettings, hpsv], hversion, hother, helems⟩
  · intro b
    cases b with
    | missing => exact hfix
    | empty => exact hfix
    | unparseable => exact hfix
    | parsed v =>
      by_cases hv : (truthy v && typeofObject v) = true
      · obtain ⟨ps, hL, hshaped, hpsv, hdays, htodos, hsettings, hversion, hother, helems,
          hobj, hall⟩ := loadInitialData_desc v hv
        set L := loadInitialData (.parsed v) with hLdef
        have hvL : (truthy L && typeofObject L) = true := by
          rw [truthy_typeofObject_eq]; exact hobj
        have hd0 : (truthyOpt (getField L "days") &&
            typeofObjectOpt (getField L "days")) = true := by
          rw [hdays]
          split
          case isTrue hc => exact hc
          case isFalse hc => rfl
        have hd1 : repairDays L = L := by
          unfold repairDays
          rw [if_pos hd0]
        have ht0 : isArrayOpt (getField L "todos") = true := by
          rw [htodos]
          split
          case isTrue hc => exact hc
          case isFalse hc => rfl
        have ht1 : repairTodos L = L := by
          unfold repairTodos
          rw [if_pos ht0]
        have hs0 : (truthyOpt (getField L "settings") &&
            typeofObjectOpt (getField L "settings")) = true := by
          rw [hsettings]; rfl
        have hs1 : repairSettings L = setField L "settings" (JValue.obj ps) := by
          unfold repairSettings
          rw [if_pos hs0, hsettings,
            show ((some (JValue.obj ps)).getD JValue.null) = JValue.obj ps from rfl,
            show spreadProps (JValue.obj ps) = ps from rfl,
            mergeProps_shaped_fix ps hshaped]
        have hs2 : setField L "settings" (JValue.obj ps) = L :=
          setField_id L "settings" (JValue.obj ps) hobj hall (by rw [hsettings]; rfl)
        show loadInitialData (.parsed L) = L
        unfold loadInitialData
        dsimp only
        rw [if_neg (show ¬¬((truthy L && typeofObject L) = true) from fun hn => hn hvL),
          hd1, ht1, hs1, hs2]
        conv_lhs => rw [hL]
        rw [setField_setField]
        exact hL.symm
      · have hred : loadInitialData (.parsed v) = getEmptyData := by
          unfold loadInitialData
          dsimp only
          rw [if_pos hv]
        rw [hred]
        exact hfix

theorem c4_loadInitialData_witness :
    getField (loadInitialData (.parsed versionTwoBlob)) "todos" =
        (if isArrayOpt (getField versionTwoBlob "todos")
          then getField versionTwoBlob "todos" else some (.arr [] [])) ∧
      getField (loadInitialData (.parsed versionTwoBlob)) "currentSession" =
        getField versionTwoBlob "currentSession" :=
  ⟨((c4_loadInitialData_amended.2.2.1 versionTwoBlob (by decide)).2.1),
    ((c4_loadInitialData_amended.2.2.1 versionTwoBlob (by decide)).2.2.2.2.1
      "currentSession" (by decide) (by decide) (by decide) (by decide))⟩

theorem c5_weeklyTotal_witness :
    getTotalMsForDate exampleRunningData "1999-12-31" 0 = 0 :=
  (c5_weeklyTotal_correct exampleRunningData 0).2.2.2.2 "1999-12-31" (by decide)
